import Mathlib

/-
  Verification development for the DiscordRepostBot repository.

  The repository holds two generations of the same bot:
  * src/DiscordRepostBot/repost_bot.py + guild_database.py (SQLite-backed), embedded
    below in namespace RepostBot, and
  * src/protestbot.py (JSON-dict-backed), embedded in namespace ProtestBot.

  Timestamps (message.created_at.timestamp(), a float of seconds) are modelled as
  integers (think microseconds); only their ordering is ever used by the code.
  Discord collaborators (message delivery, channel history paging, reactions) are
  modelled after the interfaces the code consumes: a channel carries the list of
  messages its history call would deliver, `none` standing for discord.Forbidden.
  Fallible Python statements (sqlite3 errors, KeyError) are modelled with Except.
-/

namespace RepostBot

/-- The author of a Discord message (discord.Member): identity plus the bot flag. -/
structure Author where
  id : Int
  bot : Bool
deriving DecidableEq

/-- A Discord message as consumed by repost_bot.py: identity, channel, author,
creation timestamp, and the url of each embed (`none` models discord.Embed.Empty). -/
structure Message where
  id : Int
  channelId : Int
  author : Author
  timestamp : Int
  embeds : List (Option String)
deriving DecidableEq

/-- One row of the originals or reposts table of guild_database.py
(columns url, messageID, channelID, memberID, timestamp). -/
structure UrlRow where
  url : String
  messageID : Int
  channelID : Int
  memberID : Int
  timestamp : Int
deriving DecidableEq

/-- The logical contents of one guild database (guild_database.py):
originals table (url is PRIMARY KEY), reposts table (unique index on
(url, messageID, channelID)), members table, blacklistedChannels table,
the lastUpdate column of the updates table, and the active flag. -/
structure GuildDatabase where
  originals : List UrlRow
  reposts : List UrlRow
  members : List Int
  blacklistedChannels : List Int
  lastUpdated : Int
  active : Bool
deriving DecidableEq

/-- The row that add_original and add_repost build from a url and a message. -/
def row_of (url : String) (m : Message) : UrlRow :=
  ⟨url, m.id, m.channelId, m.author.id, m.timestamp⟩

/-- GuildDatabase.get_originals filtered by url:
SELECT star FROM originals WHERE url = :url. -/
def get_originals (db : GuildDatabase) (url : String) : List UrlRow :=
  db.originals.filter (fun r => r.url == url)

/-- The URL_STATUS enum of repost_bot.py. -/
inductive URL_STATUS
  | NEW
  | REPOST
  | REVERSE_REPOST
  | ALREADY_REPORTED
deriving DecidableEq

/-- RepostBot.check_if_repost (repost_bot.py lines 101 to 114): take the first
originals row for the url ([] raises IndexError, caught and mapped to NEW);
same messageID and channelID means ALREADY_REPORTED; an original with a strictly
smaller timestamp means REPOST; otherwise (including equal timestamps)
REVERSE_REPOST. -/
def check_if_repost (db : GuildDatabase) (url : String) (m : Message) : URL_STATUS :=
  match get_originals db url with
  | [] => URL_STATUS.NEW
  | original :: _ =>
    if original.messageID = m.id ∧ original.channelID = m.channelId then
      URL_STATUS.ALREADY_REPORTED
    else if original.timestamp < m.timestamp then
      URL_STATUS.REPOST
    else
      URL_STATUS.REVERSE_REPOST

/-- GuildDatabase.add_original: INSERT the row built from the message into originals. -/
def add_original (db : GuildDatabase) (url : String) (m : Message) : GuildDatabase :=
  { db with originals := db.originals ++ [row_of url m] }

/-- GuildDatabase.add_repost: INSERT into reposts. The table carries
CREATE UNIQUE INDEX repost_index ON REPOSTS (url, messageID, channelID), so an
insert that repeats an existing (url, messageID, channelID) key raises
sqlite3.IntegrityError, which no caller catches. -/
def add_repost (db : GuildDatabase) (url : String) (m : Message) : Except String GuildDatabase :=
  if db.reposts.any (fun r => r.url == url && r.messageID == m.id && r.channelID == m.channelId) then
    Except.error "IntegrityError"
  else
    Except.ok { db with reposts := db.reposts ++ [row_of url m] }

/-- GuildDatabase.update_original runs _update_table("originals", url, messageID,
channelID, memberID, timestamp). _update_table builds
UPDATE originals SET url = :url, messageID = :messageID, ... followed by
_conditional_from_arguments, which joins the same five conditions with commas:
WHERE url = :url, messageID = :messageID, channelID = :channelID, ... .
A comma-separated WHERE clause is not valid SQL, so executing this statement
unconditionally raises sqlite3.OperationalError. -/
def update_original (_db : GuildDatabase) (_url : String) (_m : Message) :
    Except String GuildDatabase :=
  Except.error "OperationalError"

/-- The body of RepostBot.handle_reverse_repost (repost_bot.py lines 129 to 138), as
it would execute if it were awaited: update_original first (which raises, see above);
were the update to succeed, the code would then re-read the first originals row for
the url, fetch the message of that row (the fetch collaborator maps channelID and
messageID to the live message), react on it, and add_repost it -- note the re-read
happens after the holder row was overwritten with the new occurrence. -/
def handle_reverse_repost_body (fetch : Int → Int → Message) (db : GuildDatabase)
    (url : String) (m : Message) : Except String GuildDatabase := do
  let db2 ← update_original db url m
  match get_originals db2 url with
  | [] => Except.error "IndexError"
  | original :: _ =>
    let old_message := fetch original.channelID original.messageID
    add_repost db2 url old_message

/-- The guard message.author == self of repost_bot.py line 80 compares a
discord.Member with the Bot object itself; Member equality requires the other
operand to be a user-tagged object, which the Bot is not, so the comparison is
always False. -/
def author_eq_self (_m : Message) : Bool := false

/-- The per-embed dispatch of RepostBot.review_message (repost_bot.py lines 85 to 99):
NEW runs handle_new_url (add_original); REPOST awaits mark_repost (reaction is an
external side effect, then add_repost); REVERSE_REPOST invokes
handle_reverse_repost WITHOUT await (line 93), so the coroutine is created and
discarded and its body never executes -- the database is left untouched;
ALREADY_REPORTED only logs. -/
def review_url (db : GuildDatabase) (url : String) (m : Message) :
    Except String GuildDatabase :=
  match check_if_repost db url m with
  | URL_STATUS.NEW => Except.ok (add_original db url m)
  | URL_STATUS.REPOST => add_repost db url m
  | URL_STATUS.REVERSE_REPOST => Except.ok db
  | URL_STATUS.ALREADY_REPORTED => Except.ok db

/-- One embed iteration of review_message: an embed whose url is
discord.Embed.Empty is skipped, any other runs review_url. -/
def review_embed (m : Message) (db : GuildDatabase) (e : Option String) :
    Except String GuildDatabase :=
  match e with
  | none => Except.ok db
  | some url => review_url db url m

/-- RepostBot.review_message (repost_bot.py lines 77 to 99): skip the whole body
when the author is the bot itself or any bot; otherwise run every embed with a
url through review_url. -/
def review_message (db : GuildDatabase) (m : Message) : Except String GuildDatabase :=
  if author_eq_self m || m.author.bot then
    Except.ok db
  else
    m.embeds.foldlM (review_embed m) db

/-- Sequential processing of a list of messages through review_message, as a
channel scan or a stream of live messages performs it. -/
def replay (db : GuildDatabase) (msgs : List Message) : Except String GuildDatabase :=
  msgs.foldlM review_message db

/-- GuildDatabase.commit persists the connection; it does not change the logical
contents. -/
def commit (db : GuildDatabase) : GuildDatabase := db

/-- The watermark update of on_message (repost_bot.py lines 227 to 229): set
lastUpdated to the message timestamp only when that timestamp is strictly larger. -/
def update_last_updated (db : GuildDatabase) (ts : Int) : GuildDatabase :=
  if ts > db.lastUpdated then { db with lastUpdated := ts } else db

/-- The on_message event handler (repost_bot.py lines 216 to 230): return
immediately for bot authors or an inactive guild; otherwise review the message,
advance lastUpdated under the strictly-greater guard, and commit. -/
def on_message (db : GuildDatabase) (m : Message) : Except String GuildDatabase :=
  if m.author.bot || !db.active then
    Except.ok db
  else do
    let db2 ← review_message db m
    Except.ok (commit (update_last_updated db2 m.timestamp))

/-- A guild channel as the reconciler sees it: identity, whether it is a text
channel, and the ascending-timestamp message list its history call would deliver
(`none` models discord.Forbidden being raised on access). -/
structure Channel where
  id : Int
  isText : Bool
  msgs : Option (List Message)
deriving DecidableEq

/-- Observable events of a reconciliation run: reviewing one message, or a
durable database commit. -/
inductive DbEvent
  | review (messageId : Int)
  | commit
deriving DecidableEq

/-- channel.history(after = afterT, oldest_first = True). Modelled from the spec:
the Message Source collaborator pages a channel history in ascending timestamp
order and its `after` bound is exclusive, so the delivered messages are exactly
those with timestamp strictly greater than afterT, in the channel order. -/
def history_after (msgs : List Message) (afterT : Int) : List Message :=
  msgs.filter (fun m => afterT < m.timestamp)

/-- One message iteration of the channel scan: review the message and record a
review event. -/
def review_step (p : GuildDatabase × List DbEvent) (m : Message) :
    Except String (GuildDatabase × List DbEvent) := do
  let db2 ← review_message p.1 m
  Except.ok (db2, p.2 ++ [DbEvent.review m.id])

/-- Reviewing the delivered messages of one channel in order, recording one
review event per message; no commit happens here. -/
def review_history (db : GuildDatabase) (msgs : List Message) :
    Except String (GuildDatabase × List DbEvent) :=
  msgs.foldlM review_step (db, [])

/-- The per-channel step of RepostBot.review_messages (repost_bot.py lines 57 to 75):
skip non-text channels, skip blacklisted channels, catch discord.Forbidden (an
inaccessible history) by skipping the channel, and otherwise review the history
strictly after the given bound. -/
def review_channel (blacklist : List Int) (afterT : Int) (db : GuildDatabase)
    (ch : Channel) : Except String (GuildDatabase × List DbEvent) :=
  if ¬ch.isText then Except.ok (db, [])
  else if ch.id ∈ blacklist then Except.ok (db, [])
  else
    match ch.msgs with
    | none => Except.ok (db, [])
    | some msgs => review_history db (history_after msgs afterT)

/-- One channel iteration of the scan, accumulating events. -/
def channel_step (blacklist : List Int) (afterT : Int)
    (p : GuildDatabase × List DbEvent) (ch : Channel) :
    Except String (GuildDatabase × List DbEvent) := do
  let q ← review_channel blacklist afterT p.1 ch
  Except.ok (q.1, p.2 ++ q.2)

/-- Folding review_channel over the guild channels, accumulating events. -/
def review_channels (blacklist : List Int) (afterT : Int) (db : GuildDatabase)
    (chs : List Channel) : Except String (GuildDatabase × List DbEvent) :=
  chs.foldlM (channel_step blacklist afterT) (db, [])

/-- RepostBot.review_messages (repost_bot.py lines 51 to 75): read last_updated and
the blacklisted channels once, then scan every channel. The history bound passed
is last_updated plus one microsecond (line 70), and the collaborator bound is
exclusive, so only messages with timestamp strictly greater than
lastUpdated + 1 are delivered. -/
def review_messages (db : GuildDatabase) (chs : List Channel) :
    Except String (GuildDatabase × List DbEvent) :=
  review_channels db.blacklistedChannels (db.lastUpdated + 1) db chs

/-- GuildDatabase.is_member: SELECT star FROM members WHERE memberID = :memberID
then fetchone(). When a row matches, len(row) > 0 gives True; when none matches,
fetchone() returns None and len(None) raises TypeError, which no caller catches. -/
def is_member (db : GuildDatabase) (memberId : Int) : Except String Bool :=
  if memberId ∈ db.members then Except.ok true else Except.error "TypeError"

/-- GuildDatabase.add_member: INSERT the member id into members. -/
def add_member (db : GuildDatabase) (memberId : Int) : GuildDatabase :=
  { db with members := db.members ++ [memberId] }

/-- One member iteration of update_members: query is_member (which fails for an
absent member, see above) and insert when it answers false. -/
def member_step (db : GuildDatabase) (mid : Int) : Except String GuildDatabase := do
  let b ← is_member db mid
  if !b then Except.ok (add_member db mid) else Except.ok db

/-- RepostBot.update_members (repost_bot.py lines 44 to 49): for every current
guild member, add it when is_member says it is absent. There is no removal of
departed members. -/
def update_members (db : GuildDatabase) (guildMembers : List Int) :
    Except String GuildDatabase :=
  guildMembers.foldlM member_step db

/-- RepostBot.update_database (repost_bot.py lines 38 to 42): update_members, then
review_messages over all channels, then a single commit. -/
def update_database (db : GuildDatabase) (guildMembers : List Int) (chs : List Channel) :
    Except String (GuildDatabase × List DbEvent) := do
  let db1 ← update_members db guildMembers
  let q ← review_messages db1 chs
  Except.ok (commit q.1, q.2 ++ [DbEvent.commit])

/-- Projection of the event trace of a reconciliation result. -/
def eventsOf (r : Except String (GuildDatabase × List DbEvent)) : List DbEvent :=
  match r with
  | Except.ok p => p.2
  | Except.error _ => []

end RepostBot

namespace ProtestBot

/-- A Discord message as consumed by protestbot.py: identity, channel, author id,
author bot flag, creation timestamp, raw content, and the url candidates the
URLExtract collaborator pulls out of the content. -/
structure PMessage where
  id : Int
  channelId : Int
  authorId : Int
  authorIsBot : Bool
  timestamp : Int
  content : String
  urls : List String
deriving DecidableEq

/-- One value of the repost_URLs dict of a member: channel_id, message_id, count. -/
structure PRepost where
  channel_id : Int
  message_id : Int
  count : Int
deriving DecidableEq

/-- One entry of the members dict: the unique_URLs dict (url to the channel_id and
message_id of the original posting) and the repost_URLs dict. -/
structure PMemberRecord where
  unique_URLs : List (String × Int × Int)
  repost_URLs : List (String × PRepost)
deriving DecidableEq

/-- The per-guild JSON database of protestbot.py: the fields the repost logic
reads and mutates. Python dicts are modelled as association lists. -/
structure PStore where
  active : Bool
  channel_blacklist : List Int
  last_update : Int
  URL_blacklist : List String
  URLs : List (String × Int)
  members : List (Int × PMemberRecord)
deriving DecidableEq

/-- Dict lookup on an association list: the value at the first matching key. -/
def plookup {α β : Type} [BEq α] (l : List (α × β)) (k : α) : Option β :=
  match l with
  | [] => none
  | p :: rest => if p.fst == k then some p.snd else plookup rest k

/-- Dict assignment: replace the value at the key when present, append otherwise. -/
def pset {α β : Type} [BEq α] (l : List (α × β)) (k : α) (v : β) : List (α × β) :=
  match l with
  | [] => [(k, v)]
  | p :: rest => if p.fst == k then (k, v) :: rest else p :: pset rest k v

/-- dict.pop(key, None): drop the entry at the key when present. -/
def perase {α β : Type} [BEq α] (l : List (α × β)) (k : α) : List (α × β) :=
  l.filter (fun p => !(p.fst == k))

/-- The repost_URLs update shared by the repost and reverse-repost branches
(protestbot.py lines 235 to 244 and 254 to 257): increment the count when the url
is already a recorded repost of that member, otherwise insert a fresh entry with
count 1 at the given channel and message identity. -/
def bump_repost (l : List (String × PRepost)) (url : String) (chId msgId : Int) :
    List (String × PRepost) :=
  match plookup l url with
  | some r => pset l url { r with count := r.count + 1 }
  | none => pset l url ⟨chId, msgId, 1⟩

/-- The url-classification body of ProtestBot.check_message for one url
(protestbot.py lines 211 to 271), before the trailing last_update line.
A blacklisted url only logs. A url absent from URLs is recorded as unique for the
author (the try/except KeyError plus setdefault makes a missing member record
behave as an empty one). Otherwise the holder location is read from the old
member record (a direct dict access: a missing key raises KeyError, uncaught) and
the recorded original message is fetched from Discord; strictly newer means
repost (react externally, bump the repost_URLs of the author); the identical message
id means no change; otherwise reverse repost: react on the old message, bump the
repost_URLs of the OLD poster at the identity of the old message, pop the url
from the unique_URLs of the old poster, repoint URLs[url] to the new author and record the url as
the unique posting of the new author. -/
def check_message_url_inner (fetch : Int → Int → PMessage) (db : PStore)
    (msg : PMessage) (url : String) : Except String PStore :=
  if url ∈ db.URL_blacklist then
    Except.ok db
  else
    match plookup db.URLs url with
    | none =>
      let db1 : PStore := { db with URLs := pset db.URLs url msg.authorId }
      let r0 : PMemberRecord := (plookup db1.members msg.authorId).getD ⟨[], []⟩
      Except.ok { db1 with
        members := pset db1.members msg.authorId
          { r0 with unique_URLs := pset r0.unique_URLs url (msg.channelId, msg.id) } }
    | some old_user_id =>
      match plookup db.members old_user_id with
      | none => Except.error "KeyError"
      | some oldRec =>
        match plookup oldRec.unique_URLs url with
        | none => Except.error "KeyError"
        | some old_loc =>
          if (fetch old_loc.1 old_loc.2).timestamp < msg.timestamp then
            let r0 : PMemberRecord := (plookup db.members msg.authorId).getD ⟨[], []⟩
            let r1 : PMemberRecord :=
              { r0 with repost_URLs := bump_repost r0.repost_URLs url msg.channelId msg.id }
            Except.ok { db with members := pset db.members msg.authorId r1 }
          else if msg.id = (fetch old_loc.1 old_loc.2).id then
            Except.ok db
          else
            let o1 : PMemberRecord :=
              { oldRec with
                repost_URLs := bump_repost oldRec.repost_URLs url
                  (fetch old_loc.1 old_loc.2).channelId (fetch old_loc.1 old_loc.2).id }
            let o2 : PMemberRecord := { o1 with unique_URLs := perase o1.unique_URLs url }
            let db1 : PStore := { db with members := pset db.members old_user_id o2 }
            let db2 : PStore := { db1 with URLs := pset db1.URLs url msg.authorId }
            let r0 : PMemberRecord := (plookup db2.members msg.authorId).getD ⟨[], []⟩
            let r1 : PMemberRecord :=
              { r0 with unique_URLs := pset r0.unique_URLs url (msg.channelId, msg.id) }
            Except.ok { db2 with members := pset db2.members msg.authorId r1 }

/-- One url iteration of ProtestBot.check_message including the trailing
last_update line (protestbot.py lines 273 to 277), which runs for every url
occurrence, blacklisted or not: last_update becomes the maximum of its parsed
current value and the message timestamp. -/
def check_message_url (fetch : Int → Int → PMessage) (db : PStore)
    (msg : PMessage) (url : String) : Except String PStore := do
  let db2 ← check_message_url_inner fetch db msg url
  Except.ok { db2 with last_update := max db2.last_update msg.timestamp }

/-- message.content.lower().startswith("$protest"), computed over the character
sequence of the content. -/
def starts_with_protest (s : String) : Bool :=
  (s.data.map Char.toLower).take 8 == "$protest".data

/-- The url fold step of check_message. -/
def url_step (fetch : Int → Int → PMessage) (msg : PMessage) (db : PStore)
    (url : String) : Except String PStore :=
  check_message_url fetch db msg url

/-- ProtestBot.check_message (protestbot.py lines 200 to 277): return unchanged
for the bot itself (user id comparison), for any bot author, or for a command
message; otherwise run every extracted url through check_message_url. -/
def check_message (selfId : Int) (fetch : Int → Int → PMessage) (db : PStore)
    (msg : PMessage) : Except String PStore :=
  if msg.authorId = selfId then Except.ok db
  else if msg.authorIsBot then Except.ok db
  else if starts_with_protest msg.content then Except.ok db
  else msg.urls.foldlM (url_step fetch msg) db

/-- One step of processing a (message, url) occurrence. -/
def occ_step (fetch : Int → Int → PMessage) (db : PStore)
    (occ : PMessage × String) : Except String PStore :=
  check_message_url fetch db occ.1 occ.2

/-- Sequential processing of (message, url) occurrences through check_message_url. -/
def process_urls (fetch : Int → Int → PMessage) (db : PStore)
    (occs : List (PMessage × String)) : Except String PStore :=
  occs.foldlM (occ_step fetch) db

/-- A guild channel as ProtestBot.search_channels sees it; `none` for the message
list models discord.Forbidden on history access. -/
structure PChannel where
  id : Int
  isText : Bool
  msgs : Option (List PMessage)
deriving DecidableEq

/-- channel.history(after = afterT, oldest_first = True) for protestbot. Modelled
from the spec: the Message Source pages ascending with an exclusive after bound. -/
def phistory_after (msgs : List PMessage) (afterT : Int) : List PMessage :=
  msgs.filter (fun m => afterT < m.timestamp)

/-- The per-channel step of ProtestBot.search_channels (protestbot.py lines 176
to 197): skip non-text channels, skip blacklisted channels, catch
discord.Forbidden by skipping the channel, otherwise check every delivered
message. -/
def search_channel (selfId : Int) (fetch : Int → Int → PMessage) (db : PStore)
    (ch : PChannel) (afterT : Int) : Except String PStore :=
  if ¬ch.isText then Except.ok db
  else if ch.id ∈ db.channel_blacklist then Except.ok db
  else
    match ch.msgs with
    | none => Except.ok db
    | some msgs => (phistory_after msgs afterT).foldlM (check_message selfId fetch) db

/-- ProtestBot.search_channels (protestbot.py lines 172 to 197): scan every guild
channel after the given time. -/
def search_channels (selfId : Int) (fetch : Int → Int → PMessage) (db : PStore)
    (chs : List PChannel) (afterT : Int) : Except String PStore :=
  chs.foldlM (fun db ch => search_channel selfId fetch db ch afterT) db

/-- ProtestBot.add_members (protestbot.py lines 141 to 147): setdefault an empty
record for every current guild member; members no longer present are never
removed. -/
def add_members (db : PStore) (guildMembers : List Int) : PStore :=
  guildMembers.foldl
    (fun db mid =>
      match plookup db.members mid with
      | some _ => db
      | none => { db with members := db.members ++ [(mid, ⟨[], []⟩)] })
    db

end ProtestBot

open RepostBot ProtestBot

/-- An empty, active guild database with watermark 0. -/
def dbEmptyR : GuildDatabase := ⟨[], [], [], [], 0, true⟩

/-- An empty, active protestbot store with watermark 0. -/
def pdbEmpty : PStore := ⟨true, [], 0, [], [], []⟩

/-- C1 input: the database already holds url u with holder message 1 in channel 5
by member 1 at timestamp 10. -/
def dbC1 : GuildDatabase := { dbEmptyR with originals := [⟨"u", 1, 5, 1, 10⟩] }

/-- C1 input: an occurrence of u by member 3 in channel 6 at the earlier
timestamp 5. -/
def msgC1 : Message := ⟨3, 6, ⟨3, false⟩, 5, [some "u"]⟩

/-- C1 fetch collaborator (its value is irrelevant: the handler body fails first). -/
def fetchC1 : Int → Int → Message := fun _ _ => msgC1

/-- C2 input: url u held by message 1, and the occurrence (u, message 2,
channel 1) already recorded as a RepostEntry. -/
def dbC2 : GuildDatabase :=
  { dbEmptyR with
    originals := [⟨"u", 1, 1, 1, 10⟩], reposts := [⟨"u", 2, 1, 2, 20⟩] }

/-- C2 input: re-submission of the already recorded repost occurrence. -/
def msgC2 : Message := ⟨2, 1, ⟨2, false⟩, 20, [some "u"]⟩

/-- C2 witness input: url u held by message 1 in channel 1 at timestamp 10. -/
def dbW2 : GuildDatabase := { dbEmptyR with originals := [⟨"u", 1, 1, 1, 10⟩] }

/-- C2 witness input: re-submission of the holder occurrence itself. -/
def mW2 : Message := ⟨1, 1, ⟨1, false⟩, 10, [some "u"]⟩

/-- C3 input: url u held by message 1 in channel 1 at timestamp 10. -/
def dbC3 : GuildDatabase := { dbEmptyR with originals := [⟨"u", 1, 1, 1, 10⟩] }

/-- C3 input: a different message with exactly the timestamp of the holder. -/
def msgC3 : Message := ⟨2, 1, ⟨2, false⟩, 10, [some "u"]⟩

/-- C4 input: first processed occurrence of u, at timestamp 10. -/
def mC4A : Message := ⟨1, 1, ⟨1, false⟩, 10, [some "u"]⟩

/-- C4 input: second processed occurrence of u, at the smaller timestamp 5. -/
def mC4B : Message := ⟨2, 2, ⟨2, false⟩, 5, [some "u"]⟩

/-- C4 result: the database after replaying both occurrences, still holding the
timestamp-10 occurrence as original. -/
def dbC4res : GuildDatabase := { dbEmptyR with originals := [⟨"u", 1, 1, 1, 10⟩] }

/-- C5 witness input: an ordinary human message carrying one url. -/
def mC5 : Message := ⟨2, 1, ⟨8, false⟩, 30, [some "y"]⟩

/-- C5 witness result of on_message on the empty database. -/
def dbC5res : GuildDatabase :=
  { dbEmptyR with originals := [⟨"y", 2, 1, 8, 30⟩], lastUpdated := 30 }

/-- C5 witness input on the protestbot side. -/
def pmsgC5 : PMessage := ⟨1, 1, 9, false, 40, "hello", ["z"]⟩

/-- C5 witness fetch collaborator. -/
def fetchP5 : Int → Int → PMessage := fun _ _ => pmsgC5

/-- C5 witness result of check_message on the empty protestbot store. -/
def pdbC5res : PStore :=
  { pdbEmpty with
    last_update := 40, URLs := [("z", 9)], members := [(9, ⟨[("z", 1, 1)], []⟩)] }

/-- C6 input: a store whose URL blacklist holds u, watermark 0. -/
def pdbC6 : PStore := { pdbEmpty with URL_blacklist := ["u"] }

/-- C6 input: an occurrence of the blacklisted url u at timestamp 5. -/
def pmsgC6 : PMessage := ⟨1, 1, 9, false, 5, "", ["u"]⟩

/-- C6 fetch collaborator. -/
def fetchP6 : Int → Int → PMessage := fun _ _ => pmsgC6

/-- C6 witness input: a later occurrence of a non-blacklisted url v. -/
def pmsgC6v : PMessage := ⟨2, 1, 9, false, 7, "", ["v"]⟩

/-- C6 witness result: after the blacklisted occurrence of u and the ordinary
occurrence of v, the store has advanced its watermark twice and tracks only v. -/
def pdbC6res : PStore :=
  { pdbC6 with
    last_update := 7, URLs := [("v", 9)], members := [(9, ⟨[("v", 1, 2)], []⟩)] }

/-- C7 witness: an accessible text channel before the failing one. -/
def chW7a : Channel := ⟨1, true, some [⟨11, 1, ⟨4, false⟩, 3, [some "w"]⟩]⟩

/-- C7 witness: a text channel whose history raises discord.Forbidden. -/
def chW7bad : Channel := ⟨2, true, none⟩

/-- C7 witness: an accessible text channel after the failing one. -/
def chW7b : Channel := ⟨3, true, some [⟨12, 3, ⟨5, false⟩, 4, [some "w"]⟩]⟩

/-- C7 witness on the protestbot side: accessible channel. -/
def pchW7a : PChannel := ⟨1, true, some [⟨21, 1, 4, false, 3, "", ["w"]⟩]⟩

/-- C7 witness on the protestbot side: inaccessible channel. -/
def pchW7bad : PChannel := ⟨2, true, none⟩

/-- C7 witness on the protestbot side: accessible channel after the failing one. -/
def pchW7b : PChannel := ⟨3, true, some [⟨22, 3, 5, false, 4, "", ["w"]⟩]⟩

/-- C7 witness fetch collaborator. -/
def fetchP7 : Int → Int → PMessage := fun _ _ => ⟨0, 0, 0, false, 0, "", []⟩

/-- C8 input: channel 7 history, three human messages with distinct urls at
timestamps 1, 5 and 9 (watermark is 0, so all three are strictly after it). -/
def chC8 : Channel :=
  ⟨7, true, some
    [⟨101, 7, ⟨1, false⟩, 1, [some "a"]⟩,
     ⟨105, 7, ⟨2, false⟩, 5, [some "b"]⟩,
     ⟨109, 7, ⟨3, false⟩, 9, [some "c"]⟩]⟩

/-- C9 input: the database records member 99; the guild roster is just member 1. -/
def dbC9 : GuildDatabase := { dbEmptyR with members := [99] }

/-- C9 witness input: the database records member 5, who is still in the guild. -/
def dbW9 : GuildDatabase := { dbEmptyR with members := [5] }

/-- C9 input on the protestbot side: member 99 recorded, absent from the roster. -/
def pdbC9 : PStore := { pdbEmpty with members := [(99, ⟨[], []⟩)] }

/-- C10 witness input: a message authored by a bot, carrying a url. -/
def mBot : Message := ⟨1, 1, ⟨7, true⟩, 50, [some "x"]⟩

/-- C10 witness input on the protestbot side. -/
def pmsgBot : PMessage := ⟨1, 1, 7, true, 50, "", ["x"]⟩

/-- The uniqueness invariant enforced by the unique index of the reposts table:
no two rows share the (url, messageID, channelID) key. -/
def noDupKeys (rows : List UrlRow) : Prop :=
  rows.Pairwise
    (fun a b => ¬(a.url = b.url ∧ a.messageID = b.messageID ∧ a.channelID = b.channelID))

/- ------------------------------------------------------------------ -/
/- Helper lemmas -/
/- ------------------------------------------------------------------ -/

theorem ok_bind {α β : Type} (a : α) (f : α → Except String β) :
    (Except.ok a : Except String α) >>= f = f a := rfl

theorem error_bind {α β : Type} (e : String) (f : α → Except String β) :
    (Except.error e : Except String α) >>= f = Except.error e := rfl

/-- A foldlM step that is a pure identity on a given element can be dropped from
the middle of the list. -/
theorem foldlM_skip_middle {α β : Type} (f : β → α → Except String β) (x : α)
    (hx : ∀ b, f b x = Except.ok b) :
    ∀ (l1 l2 : List α) (init : β),
      (l1 ++ x :: l2).foldlM f init = (l1 ++ l2).foldlM f init := by
  intro l1
  induction l1 with
  | nil =>
    intro l2 init
    simp [List.foldlM_cons, hx, ok_bind]
  | cons a l ih =>
    intro l2 init
    simp only [List.cons_append, List.foldlM_cons]
    cases hfa : f init a with
    | error e => simp [error_bind]
    | ok b => simp [ok_bind, ih]

/-- A classification of NEW can only arise when no originals row for the url
exists. -/
theorem check_if_repost_new {db : GuildDatabase} {url : String} {m : Message}
    (h : check_if_repost db url m = URL_STATUS.NEW) : get_originals db url = [] := by
  unfold check_if_repost at h
  cases hg : get_originals db url with
  | nil => rfl
  | cons o rest =>
    rw [hg] at h
    have h2 : (if o.messageID = m.id ∧ o.channelID = m.channelId then
        URL_STATUS.ALREADY_REPORTED
      else if o.timestamp < m.timestamp then URL_STATUS.REPOST
      else URL_STATUS.REVERSE_REPOST) = URL_STATUS.NEW := h
    split_ifs at h2

/-- review_url never changes the originals rows once a holder for the url exists. -/
theorem review_url_originals {db : GuildDatabase} {url : String} {m : Message}
    {db' : GuildDatabase} (h : review_url db url m = Except.ok db')
    (hne : get_originals db url ≠ []) : db'.originals = db.originals := by
  unfold review_url at h
  cases hc : check_if_repost db url m <;> rw [hc] at h
  · exact absurd (check_if_repost_new hc) hne
  · unfold add_repost at h
    by_cases hdup :
        (db.reposts.any fun r =>
          r.url == url && r.messageID == m.id && r.channelID == m.channelId) = true
    · rw [if_pos hdup] at h
      cases h
    · rw [if_neg hdup] at h
      cases h
      rfl
  · cases h
    rfl
  · cases h
    rfl

/-- review_url leaves every field of the database except originals and reposts
unchanged. -/
theorem review_url_frame {db : GuildDatabase} {url : String} {m : Message}
    {db' : GuildDatabase} (h : review_url db url m = Except.ok db') :
    db'.members = db.members ∧ db'.blacklistedChannels = db.blacklistedChannels ∧
    db'.lastUpdated = db.lastUpdated ∧ db'.active = db.active := by
  unfold review_url at h
  cases hc : check_if_repost db url m <;> rw [hc] at h
  · cases h
    exact ⟨rfl, rfl, rfl, rfl⟩
  · unfold add_repost at h
    by_cases hdup :
        (db.reposts.any fun r =>
          r.url == url && r.messageID == m.id && r.channelID == m.channelId) = true
    · rw [if_pos hdup] at h
      cases h
    · rw [if_neg hdup] at h
      cases h
      exact ⟨rfl, rfl, rfl, rfl⟩
  · cases h
    exact ⟨rfl, rfl, rfl, rfl⟩
  · cases h
    exact ⟨rfl, rfl, rfl, rfl⟩

/-- The embed fold of review_message also leaves those fields unchanged. -/
theorem embeds_fold_frame :
    ∀ (es : List (Option String)) (m : Message) (db db' : GuildDatabase),
      es.foldlM (review_embed m) db = Except.ok db' →
      db'.members = db.members ∧ db'.lastUpdated = db.lastUpdated ∧
      db'.active = db.active := by
  intro es
  induction es with
  | nil =>
    intro m db db' h
    cases h
    exact ⟨rfl, rfl, rfl⟩
  | cons e rest ih =>
    intro m db db' h
    rw [List.foldlM_cons] at h
    cases e with
    | none =>
      rw [show review_embed m db none = Except.ok db from rfl, ok_bind] at h
      exact ih m db db' h
    | some url =>
      rw [show review_embed m db (some url) = review_url db url m from rfl] at h
      cases hrv : review_url db url m with
      | error er =>
        rw [hrv, error_bind] at h
        cases h
      | ok db2 =>
        rw [hrv, ok_bind] at h
        obtain ⟨h1, h2, h3⟩ := ih m db2 db' h
        obtain ⟨g1, _, g3, g4⟩ := review_url_frame hrv
        exact ⟨h1.trans g1, h2.trans g3, h3.trans g4⟩

/-- review_message leaves members, lastUpdated and active unchanged. -/
theorem review_message_frame {db : GuildDatabase} {m : Message} {db' : GuildDatabase}
    (h : review_message db m = Except.ok db') :
    db'.members = db.members ∧ db'.lastUpdated = db.lastUpdated ∧
    db'.active = db.active := by
  unfold review_message at h
  split at h
  · cases h
    exact ⟨rfl, rfl, rfl⟩
  · exact embeds_fold_frame m.embeds m db db' h

/-- An ALREADY_REPORTED classification makes review_url a pure no-op. -/
theorem review_url_already {db : GuildDatabase} {url : String} {m : Message}
    (h : check_if_repost db url m = URL_STATUS.ALREADY_REPORTED) :
    review_url db url m = Except.ok db := by
  unfold review_url
  rw [h]

/- ------------------------------------------------------------------ -/
/- Claim theorems -/
/- ------------------------------------------------------------------ -/

/-- Claim C1 (code_bug evaluation): on an occurrence of url u strictly older than
the recorded holder, check_if_repost does classify REVERSE_REPOST, yet
review_message leaves the database completely unchanged, because review_message
invokes the async handle_reverse_repost without await, so the coroutine body
never runs; and that body, were it executed, would fail on its first statement,
whose generated UPDATE query joins its WHERE conditions with commas. Neither the
demotion of the old holder, nor the holder reassignment, nor the marker on the
old message ever happens. -/
theorem c1_reverse_repost_never_applied :
    check_if_repost dbC1 "u" msgC1 = URL_STATUS.REVERSE_REPOST ∧
    review_message dbC1 msgC1 = Except.ok dbC1 ∧
    handle_reverse_repost_body fetchC1 dbC1 "u" msgC1 = Except.error "OperationalError" :=
  ⟨rfl, rfl, rfl⟩

/-- Claim C2 (counterexample): the occurrence (u, message 2, channel 1) is already
recorded -- as a RepostEntry. Re-submitting it classifies as REPOST, not
ALREADY_REPORTED, and processing it raises IntegrityError on the duplicate
insert instead of returning AlreadyRecorded. -/
theorem c2_resubmission_cex :
    check_if_repost dbC2 "u" msgC2 = URL_STATUS.REPOST ∧
    check_if_repost dbC2 "u" msgC2 ≠ URL_STATUS.ALREADY_REPORTED ∧
    review_url dbC2 "u" msgC2 = Except.error "IntegrityError" :=
  ⟨rfl, by decide, rfl⟩

/-- Claim C2 (amended): re-submitting the occurrence that is the current holder
yields ALREADY_REPORTED and is idempotent for any number of repetitions; once a
holder exists no processing of the url ever changes the originals rows; and
processing preserves the no-duplicate-key invariant of the reposts table (the
unique index rejects a duplicating insert). -/
theorem c2_resubmission_amended :
    (∀ (db : GuildDatabase) (url : String) (m : Message) (o : UrlRow)
        (rest : List UrlRow),
      get_originals db url = o :: rest → o.messageID = m.id → o.channelID = m.channelId →
      m.embeds = [some url] →
      check_if_repost db url m = URL_STATUS.ALREADY_REPORTED ∧
      ∀ n : Nat, replay db (List.replicate n m) = Except.ok db) ∧
    (∀ (db : GuildDatabase) (url : String) (m : Message) (db' : GuildDatabase),
      review_url db url m = Except.ok db' → get_originals db url ≠ [] →
      db'.originals = db.originals) ∧
    (∀ (db : GuildDatabase) (url : String) (m : Message) (db' : GuildDatabase),
      noDupKeys db.reposts → review_url db url m = Except.ok db' →
      noDupKeys db'.reposts) := by
  refine ⟨?_, ?_, ?_⟩
  · intro db url m o rest hg h1 h2 hm
    have hcheck : check_if_repost db url m = URL_STATUS.ALREADY_REPORTED := by
      unfold check_if_repost
      rw [hg]
      show (if o.messageID = m.id ∧ o.channelID = m.channelId then
          URL_STATUS.ALREADY_REPORTED
        else if o.timestamp < m.timestamp then URL_STATUS.REPOST
        else URL_STATUS.REVERSE_REPOST) = URL_STATUS.ALREADY_REPORTED
      rw [if_pos ⟨h1, h2⟩]
    have hrm : review_message db m = Except.ok db := by
      unfold review_message
      split
      · rfl
      · rw [hm, List.foldlM_cons,
          show review_embed m db (some url) = review_url db url m from rfl,
          review_url_already hcheck, ok_bind]
        rfl
    refine ⟨hcheck, ?_⟩
    intro n
    induction n with
    | zero => rfl
    | succ k ih =>
      unfold replay at ih ⊢
      rw [List.replicate_succ, List.foldlM_cons, hrm, ok_bind]
      exact ih
  · intro db url m db' h hne
    exact review_url_originals h hne
  · intro db url m db' hnd h
    unfold review_url at h
    cases hc : check_if_repost db url m <;> rw [hc] at h
    · cases h
      exact hnd
    · unfold add_repost at h
      by_cases hdup :
          (db.reposts.any fun r =>
            r.url == url && r.messageID == m.id && r.channelID == m.channelId) = true
      · rw [if_pos hdup] at h
        cases h
      · rw [if_neg hdup] at h
        cases h
        unfold noDupKeys at hnd ⊢
        rw [List.pairwise_append]
        refine ⟨hnd, List.pairwise_singleton _ _, ?_⟩
        intro a ha b hb
        simp only [List.mem_singleton] at hb
        subst hb
        intro hkey
        apply hdup
        rw [List.any_eq_true]
        refine ⟨a, ha, ?_⟩
        simp only [row_of] at hkey
        simp [hkey.1, hkey.2.1, hkey.2.2]
    · cases h
      exact hnd
    · cases h
      exact hnd

/-- Claim C2 (witness): re-submitting the holder occurrence of dbW2 three times
yields ALREADY_REPORTED and leaves the database untouched. -/
theorem c2_resubmission_amended_witness :
    check_if_repost dbW2 "u" mW2 = URL_STATUS.ALREADY_REPORTED ∧
    replay dbW2 (List.replicate 3 mW2) = Except.ok dbW2 := by
  have h := c2_resubmission_amended.1 dbW2 "u" mW2 ⟨"u", 1, 1, 1, 10⟩ [] rfl rfl rfl rfl
  exact ⟨h.1, h.2 3⟩

/-- Claim C3 (counterexample): with the holder of u at timestamp 10 and a
different message also at timestamp 10, classification answers REVERSE_REPOST,
not REPOST as the claim requires. -/
theorem c3_equal_timestamp_cex :
    check_if_repost dbC3 "u" msgC3 = URL_STATUS.REVERSE_REPOST ∧
    check_if_repost dbC3 "u" msgC3 ≠ URL_STATUS.REPOST :=
  ⟨rfl, by decide⟩

/-- Claim C3 (amended): an occurrence whose timestamp equals the existing
timestamp of the holder, with a different message identity, is always classified
REVERSE_REPOST: the tie-break is deterministic but resolves toward the new
occurrence, not toward the existing holder. -/
theorem c3_equal_timestamp_amended :
    ∀ (db : GuildDatabase) (url : String) (m : Message) (o : UrlRow)
      (rest : List UrlRow),
      get_originals db url = o :: rest →
      ¬(o.messageID = m.id ∧ o.channelID = m.channelId) →
      o.timestamp = m.timestamp →
      check_if_repost db url m = URL_STATUS.REVERSE_REPOST := by
  intro db url m o rest hg hne hts
  unfold check_if_repost
  rw [hg]
  show (if o.messageID = m.id ∧ o.channelID = m.channelId then
      URL_STATUS.ALREADY_REPORTED
    else if o.timestamp < m.timestamp then URL_STATUS.REPOST
    else URL_STATUS.REVERSE_REPOST) = URL_STATUS.REVERSE_REPOST
  rw [if_neg hne, if_neg (by rw [hts]; exact lt_irrefl m.timestamp)]

/-- Claim C3 (witness): the amended tie-break theorem applied to the concrete
equal-timestamp pair. -/
theorem c3_equal_timestamp_amended_witness :
    check_if_repost dbC3 "u" msgC3 = URL_STATUS.REVERSE_REPOST :=
  c3_equal_timestamp_amended dbC3 "u" msgC3 ⟨"u", 1, 1, 1, 10⟩ [] rfl (by decide) rfl

/-- Claim C4 (code_bug evaluation): replaying two occurrences of u, first the one
at timestamp 10 and then the one at timestamp 5, leaves the timestamp-10
occurrence as the holder, although the other occurrence has the strictly smaller
timestamp. The reverse-repost handler that should have reassigned the holder
never executes (it is invoked without await), so the final holder depends on
processing order. -/
theorem c4_holder_not_minimum :
    replay dbEmptyR [mC4A, mC4B] = Except.ok dbC4res ∧
    dbC4res.originals = [⟨"u", 1, 1, 1, 10⟩] ∧
    mC4B.timestamp < mC4A.timestamp :=
  ⟨rfl, rfl, by decide⟩

/-- A channel whose history raises Forbidden is a pure no-op for the channel
fold step. -/
theorem channel_step_forbidden {bl : List Int} {aft : Int} {ch : Channel}
    (hch : ch.msgs = none) (p : GuildDatabase × List DbEvent) :
    channel_step bl aft p ch = Except.ok p := by
  have hrc : review_channel bl aft p.1 ch = Except.ok (p.1, []) := by
    unfold review_channel
    rw [hch]
    split_ifs <;> rfl
  unfold channel_step
  rw [hrc, ok_bind]
  simp

/-- An inaccessible channel is a pure no-op for the protestbot channel fold step. -/
theorem search_channel_forbidden {selfId : Int} {fetch : Int → Int → PMessage}
    {ch : PChannel} (hch : ch.msgs = none) (db : PStore) (afterT : Int) :
    search_channel selfId fetch db ch afterT = Except.ok db := by
  unfold search_channel
  rw [hch]
  split_ifs <;> rfl

/-- Claim C7: a channel whose history access is denied is skipped on its own:
the scan of the remaining channels proceeds exactly as if the failing channel
were not there, in both generations of the bot. -/
theorem c7_access_denied_skips_channel_only :
    (∀ (db : GuildDatabase) (pre post : List Channel) (ch : Channel),
      ch.msgs = none →
      review_messages db (pre ++ ch :: post) = review_messages db (pre ++ post)) ∧
    (∀ (selfId : Int) (fetch : Int → Int → PMessage) (db : PStore)
        (pre post : List PChannel) (ch : PChannel) (afterT : Int),
      ch.msgs = none →
      search_channels selfId fetch db (pre ++ ch :: post) afterT =
        search_channels selfId fetch db (pre ++ post) afterT) := by
  constructor
  · intro db pre post ch hch
    unfold review_messages review_channels
    exact foldlM_skip_middle _ ch (channel_step_forbidden hch) pre post (db, [])
  · intro selfId fetch db pre post ch afterT hch
    unfold search_channels
    exact foldlM_skip_middle _ ch
      (fun b => search_channel_forbidden hch b afterT) pre post db

/-- Claim C7 (witness): with an accessible channel on each side of the
inaccessible one, the scan result equals the scan without the failing channel. -/
theorem c7_access_denied_skips_channel_only_witness :
    review_messages dbEmptyR [chW7a, chW7bad, chW7b] =
      review_messages dbEmptyR [chW7a, chW7b] ∧
    search_channels 0 fetchP7 pdbEmpty [pchW7a, pchW7bad, pchW7b] 0 =
      search_channels 0 fetchP7 pdbEmpty [pchW7a, pchW7b] 0 :=
  ⟨c7_access_denied_skips_channel_only.1 dbEmptyR [chW7a] [chW7b] chW7bad rfl,
   c7_access_denied_skips_channel_only.2 0 fetchP7 pdbEmpty [pchW7a] [pchW7b] pchW7bad 0 rfl⟩

/-- The trace of a message fold is one review event per delivered message, in
order, appended to the accumulator. -/
theorem review_history_events :
    ∀ (msgs : List Message) (db : GuildDatabase) (acc : List DbEvent)
      (res : GuildDatabase × List DbEvent),
      msgs.foldlM review_step (db, acc) = Except.ok res →
      res.2 = acc ++ msgs.map (fun m => DbEvent.review m.id) := by
  intro msgs
  induction msgs with
  | nil =>
    intro db acc res h
    simp only [List.foldlM_nil] at h
    cases h
    simp
  | cons m rest ih =>
    intro db acc res h
    rw [List.foldlM_cons] at h
    simp only [review_step] at h
    cases hrm : review_message db m with
    | error e =>
      rw [hrm, error_bind] at h
      cases h
    | ok db2 =>
      rw [hrm, ok_bind] at h
      have := ih db2 (acc ++ [DbEvent.review m.id]) res h
      simpa using this

/-- Every event a channel scan emits is a review event. -/
theorem review_channel_events {bl : List Int} {aft : Int} {db : GuildDatabase}
    {ch : Channel} {res : GuildDatabase × List DbEvent}
    (h : review_channel bl aft db ch = Except.ok res) :
    ∀ e ∈ res.2, ∃ i, e = DbEvent.review i := by
  unfold review_channel at h
  by_cases h1 : ch.isText = true
  · rw [if_neg (not_not_intro h1)] at h
    by_cases h2 : ch.id ∈ bl
    · rw [if_pos h2] at h
      cases h
      simp
    · rw [if_neg h2] at h
      cases hm : ch.msgs with
      | none =>
        rw [hm] at h
        cases h
        simp
      | some msgs =>
        rw [hm] at h
        have := review_history_events (history_after msgs aft) db [] res h
        intro e he
        rw [this] at he
        simp only [List.nil_append, List.mem_map] at he
        obtain ⟨m, _, rfl⟩ := he
        exact ⟨m.id, rfl⟩
  · rw [if_pos h1] at h
    cases h
    simp

/-- Every event the whole reconciliation scan emits is a review event. -/
theorem review_channels_all_review :
    ∀ (chs : List Channel) (bl : List Int) (aft : Int) (db : GuildDatabase)
      (acc : List DbEvent) (res : GuildDatabase × List DbEvent),
      chs.foldlM (channel_step bl aft) (db, acc) = Except.ok res →
      (∀ e ∈ acc, ∃ i, e = DbEvent.review i) →
      ∀ e ∈ res.2, ∃ i, e = DbEvent.review i := by
  intro chs
  induction chs with
  | nil =>
    intro bl aft db acc res h hacc
    simp only [List.foldlM_nil] at h
    cases h
    exact hacc
  | cons c rest ih =>
    intro bl aft db acc res h hacc
    rw [List.foldlM_cons] at h
    simp only [channel_step] at h
    cases hrc : review_channel bl aft db c with
    | error e =>
      rw [hrc, error_bind] at h
      cases h
    | ok q =>
      rw [hrc, ok_bind] at h
      refine ih bl aft q.1 (acc ++ q.2) res h ?_
      intro e he
      rcases List.mem_append.mp he with h1 | h2
      · exact hacc e h1
      · exact review_channel_events hrc e h2

/-- Claim C8 (counterexample): reconciling a guild at watermark 0 over one
accessible text channel holding human messages at timestamps 1, 5 and 9
produces the trace review(105), review(109), commit: a single commit at the very
end of the scan instead of one commit per message, and the timestamp-1 message
-- strictly after the watermark -- is never reviewed at all, because the scan
asks for history strictly after watermark + one microsecond. -/
theorem c8_per_message_commit_cex :
    eventsOf (update_database dbEmptyR [] [chC8]) =
      [DbEvent.review 105, DbEvent.review 109, DbEvent.commit] ∧
    dbEmptyR.lastUpdated < 1 ∧
    DbEvent.review 101 ∉ eventsOf (update_database dbEmptyR [] [chC8]) :=
  ⟨rfl, by decide, by decide⟩

/-- Claim C8 (amended): the reconciler scans each non-blacklisted text channel;
it reviews exactly the delivered messages with timestamp strictly greater than
the stored watermark plus one microsecond, in delivery order (ascending when the
channel history is ascending), and the whole scan ends with exactly one commit
event, after all review events. -/
theorem c8_reconciler_amended :
    (∀ (db : GuildDatabase) (gm : List Int) (chs : List Channel)
        (dbr : GuildDatabase) (evs : List DbEvent),
      update_database db gm chs = Except.ok (dbr, evs) →
      ∃ evs0, evs = evs0 ++ [DbEvent.commit] ∧
        ∀ e ∈ evs0, ∃ i, e = DbEvent.review i) ∧
    (∀ (msgs : List Message) (afterT : Int) (m : Message),
      m ∈ history_after msgs afterT → afterT < m.timestamp) ∧
    (∀ (msgs : List Message) (afterT : Int),
      msgs.Pairwise (fun a b => a.timestamp ≤ b.timestamp) →
      (history_after msgs afterT).Pairwise (fun a b => a.timestamp ≤ b.timestamp)) ∧
    (∀ (db : GuildDatabase) (ch : Channel) (msgs : List Message)
        (dbr : GuildDatabase) (evs : List DbEvent),
      ch.isText = true → ch.id ∉ db.blacklistedChannels → ch.msgs = some msgs →
      update_database db [] [ch] = Except.ok (dbr, evs) →
      evs = (history_after msgs (db.lastUpdated + 1)).map
              (fun m => DbEvent.review m.id) ++ [DbEvent.commit]) := by
  refine ⟨?_, ?_, ?_, ?_⟩
  · intro db gm chs dbr evs h
    unfold update_database at h
    cases hum : update_members db gm with
    | error e =>
      rw [hum, error_bind] at h
      cases h
    | ok db1 =>
      rw [hum, ok_bind] at h
      cases hrm : review_messages db1 chs with
      | error e =>
        rw [hrm, error_bind] at h
        cases h
      | ok q =>
        rw [hrm, ok_bind] at h
        have h2 : (commit q.1, q.2 ++ [DbEvent.commit]) = (dbr, evs) :=
          Except.ok.inj h
        obtain ⟨-, rfl⟩ := Prod.mk.injEq .. |>.mp h2
        refine ⟨q.2, rfl, ?_⟩
        unfold review_messages review_channels at hrm
        exact review_channels_all_review chs db1.blacklistedChannels
          (db1.lastUpdated + 1) db1 [] q hrm (by simp)
  · intro msgs afterT m hm
    unfold history_after at hm
    rw [List.mem_filter] at hm
    exact of_decide_eq_true hm.2
  · intro msgs afterT hsort
    exact hsort.sublist (List.filter_sublist msgs)
  · intro db ch msgs dbr evs hText hbl hm h
    unfold update_database at h
    rw [show update_members db [] = Except.ok db from rfl, ok_bind] at h
    have hrc : review_channel db.blacklistedChannels (db.lastUpdated + 1) db ch =
        review_history db (history_after msgs (db.lastUpdated + 1)) := by
      unfold review_channel
      rw [hm, if_neg (not_not_intro hText), if_neg hbl]
    have hrm : review_messages db [ch] =
        channel_step db.blacklistedChannels (db.lastUpdated + 1) (db, []) ch := by
      unfold review_messages review_channels
      rw [List.foldlM_cons]
      cases hcs : channel_step db.blacklistedChannels (db.lastUpdated + 1) (db, []) ch with
      | error e => rw [error_bind]
      | ok q =>
        rw [ok_bind]
        rfl
    rw [hrm] at h
    unfold channel_step at h
    rw [hrc] at h
    cases hrh : review_history db (history_after msgs (db.lastUpdated + 1)) with
    | error e =>
      rw [hrh, error_bind] at h
      cases h
    | ok q =>
      rw [hrh, ok_bind] at h
      have h2 : (q.1, ([] : List DbEvent) ++ q.2 ++ [DbEvent.commit]) = (dbr, evs) :=
        Except.ok.inj h
      obtain ⟨-, rfl⟩ := Prod.mk.injEq .. |>.mp h2
      have hev := review_history_events (history_after msgs (db.lastUpdated + 1)) db [] q hrh
      rw [hev]
      simp

/-- Claim C8 (witness): the amended trace shape evaluated on the concrete
channel: two review events then the single commit. -/
theorem c8_reconciler_amended_witness :
    eventsOf (update_database dbEmptyR [] [chC8]) =
      (history_after [⟨101, 7, ⟨1, false⟩, 1, [some "a"]⟩,
        ⟨105, 7, ⟨2, false⟩, 5, [some "b"]⟩,
        ⟨109, 7, ⟨3, false⟩, 9, [some "c"]⟩] (dbEmptyR.lastUpdated + 1)).map
          (fun m => DbEvent.review m.id) ++ [DbEvent.commit] := by
  have h := c8_reconciler_amended.2.2.2 dbEmptyR chC8
    [⟨101, 7, ⟨1, false⟩, 1, [some "a"]⟩,
     ⟨105, 7, ⟨2, false⟩, 5, [some "b"]⟩,
     ⟨109, 7, ⟨3, false⟩, 9, [some "c"]⟩]
    (commit { dbEmptyR with
      originals := [⟨"b", 105, 7, 2, 5⟩, ⟨"c", 109, 7, 3, 9⟩] })
    [DbEvent.review 105, DbEvent.review 109, DbEvent.commit]
    rfl (by decide) rfl rfl
  rw [show eventsOf (update_database dbEmptyR [] [chC8]) =
    [DbEvent.review 105, DbEvent.review 109, DbEvent.commit] from rfl]
  exact h

/-- Claim C9 (code_bug evaluation): syncing the roster [1] against a database
recording member 99 raises TypeError (is_member calls len on the None that
fetchone returns for an absent member), so the missing member 1 is never added;
whenever update_members does succeed it changes nothing at all, so a departed
member is never removed; and the protestbot variant add_members likewise keeps
the departed member 99 recorded. -/
theorem c9_member_sync_broken :
    update_members dbC9 [1] = Except.error "TypeError" ∧
    (∀ (db : GuildDatabase) (gm : List Int) (db' : GuildDatabase),
      update_members db gm = Except.ok db' → db' = db) ∧
    (plookup (add_members pdbC9 [1]).members 99).isSome = true := by
  refine ⟨rfl, ?_, rfl⟩
  intro db gm db' h
  unfold update_members at h
  induction gm generalizing db with
  | nil =>
    simp only [List.foldlM_nil, pure, Except.pure] at h
    cases h
    rfl
  | cons mid rest ih =>
    rw [List.foldlM_cons] at h
    by_cases hmem : mid ∈ db.members
    · have hstep : member_step db mid = Except.ok db := by
        unfold member_step is_member
        rw [if_pos hmem]
        rfl
      rw [hstep, ok_bind] at h
      exact ih db h
    · have hstep : member_step db mid = Except.error "TypeError" := by
        unfold member_step is_member
        rw [if_neg hmem]
        rfl
      rw [hstep, error_bind] at h
      cases h

/-- Claim C9 (witness): the no-mutation consequence applied at a roster already
recorded, discharging the success hypothesis concretely. -/
theorem c9_member_sync_broken_witness : dbW9 = dbW9 :=
  c9_member_sync_broken.2.1 dbW9 [5] dbW9 rfl

/-- Claim C10: a message authored by a bot (the bot account itself included) is
never classified and leaves the guild store untouched, in review_message, in the
live on_message handler, and in the protestbot check_message. -/
theorem c10_bot_author_no_effect :
    (∀ (db : GuildDatabase) (m : Message), m.author.bot = true →
      review_message db m = Except.ok db) ∧
    (∀ (db : GuildDatabase) (m : Message), m.author.bot = true →
      on_message db m = Except.ok db) ∧
    (∀ (selfId : Int) (fetch : Int → Int → PMessage) (db : PStore) (m : PMessage),
      m.authorIsBot = true → check_message selfId fetch db m = Except.ok db) := by
  refine ⟨?_, ?_, ?_⟩
  · intro db m h
    unfold review_message
    rw [if_pos (by rw [h, Bool.or_true])]
  · intro db m h
    unfold on_message
    rw [if_pos (by rw [h, Bool.true_or])]
  · intro selfId fetch db m h
    unfold check_message
    by_cases h1 : m.authorId = selfId
    · rw [if_pos h1]
    · rw [if_neg h1, if_pos h]

/-- Claim C10 (witness): concrete bot-authored messages leave the concrete empty
stores unchanged. -/
theorem c10_bot_author_no_effect_witness :
    review_message dbEmptyR mBot = Except.ok dbEmptyR ∧
    on_message dbEmptyR mBot = Except.ok dbEmptyR ∧
    check_message 0 fetchP5 pdbEmpty pmsgBot = Except.ok pdbEmpty :=
  ⟨c10_bot_author_no_effect.1 dbEmptyR mBot rfl,
   c10_bot_author_no_effect.2.1 dbEmptyR mBot rfl,
   c10_bot_author_no_effect.2.2 0 fetchP5 pdbEmpty pmsgBot rfl⟩

/-- Dict assignment at one key does not affect lookup at another key. -/
theorem plookup_pset_ne {α β : Type} [BEq α] [LawfulBEq α] {l : List (α × β)}
    {k kx : α} {v : β} (h : k ≠ kx) : plookup (pset l kx v) k = plookup l k := by
  induction l with
  | nil =>
    simp [pset, plookup, beq_iff_eq, Ne.symm h]
  | cons p rest ih =>
    by_cases hp : p.fst == kx
    · have hpk : p.fst = kx := eq_of_beq hp
      simp [pset, hp, plookup, beq_iff_eq, hpk, Ne.symm h]
    · simp [pset, hp, plookup, ih]

/-- The classification body of check_message_url never touches last_update,
the URL blacklist, the channel blacklist or the active flag. -/
theorem inner_frame {fetch : Int → Int → PMessage} {db : PStore} {msg : PMessage}
    {url : String} {db2 : PStore}
    (h : check_message_url_inner fetch db msg url = Except.ok db2) :
    db2.last_update = db.last_update ∧ db2.URL_blacklist = db.URL_blacklist ∧
    db2.channel_blacklist = db.channel_blacklist ∧ db2.active = db.active := by
  unfold check_message_url_inner at h
  split at h
  · cases h
    exact ⟨rfl, rfl, rfl, rfl⟩
  · split at h
    · cases h
      exact ⟨rfl, rfl, rfl, rfl⟩
    · split at h
      · cases h
      · split at h
        · cases h
        · split at h
          · cases h
            exact ⟨rfl, rfl, rfl, rfl⟩
          · split at h
            · cases h
              exact ⟨rfl, rfl, rfl, rfl⟩
            · cases h
              exact ⟨rfl, rfl, rfl, rfl⟩

/-- Processing any url occurrence never creates a URLs entry for a blacklisted
url that has none. -/
theorem inner_blacklisted_url_not_added {fetch : Int → Int → PMessage}
    {db : PStore} {msg : PMessage} {url burl : String} {db2 : PStore}
    (hbl : burl ∈ db.URL_blacklist) (hno : plookup db.URLs burl = none)
    (h : check_message_url_inner fetch db msg url = Except.ok db2) :
    plookup db2.URLs burl = none := by
  unfold check_message_url_inner at h
  by_cases hurlbl : url ∈ db.URL_blacklist
  · rw [if_pos hurlbl] at h
    cases h
    exact hno
  · have hne : burl ≠ url := fun hEq => hurlbl (hEq ▸ hbl)
    rw [if_neg hurlbl] at h
    split at h
    · cases h
      exact (plookup_pset_ne hne).trans hno
    · split at h
      · cases h
      · split at h
        · cases h
        · split at h
          · cases h
            exact hno
          · split at h
            · cases h
              exact hno
            · cases h
              exact (plookup_pset_ne hne).trans hno

/-- check_message_url only ever raises last_update (to its max with the message
timestamp). -/
theorem check_message_url_last_mono {fetch : Int → Int → PMessage} {db : PStore}
    {msg : PMessage} {url : String} {db' : PStore}
    (h : check_message_url fetch db msg url = Except.ok db') :
    db.last_update ≤ db'.last_update := by
  unfold check_message_url at h
  cases hin : check_message_url_inner fetch db msg url with
  | error e =>
    rw [hin, error_bind] at h
    cases h
  | ok db2 =>
    rw [hin, ok_bind] at h
    cases h
    have hfr := (inner_frame hin).1
    show db.last_update ≤ max db2.last_update msg.timestamp
    rw [← hfr]
    exact le_max_left _ _

/-- The url fold of check_message only ever raises last_update. -/
theorem urls_fold_last_mono :
    ∀ (urls : List String) (fetch : Int → Int → PMessage) (msg : PMessage)
      (db db' : PStore),
      urls.foldlM (url_step fetch msg) db = Except.ok db' →
      db.last_update ≤ db'.last_update := by
  intro urls
  induction urls with
  | nil =>
    intro fetch msg db db' h
    simp only [List.foldlM_nil, pure, Except.pure] at h
    cases h
    exact le_refl _
  | cons u rest ih =>
    intro fetch msg db db' h
    rw [List.foldlM_cons] at h
    simp only [url_step] at h
    cases hstep : check_message_url fetch db msg u with
    | error e =>
      rw [hstep, error_bind] at h
      cases h
    | ok db2 =>
      rw [hstep, ok_bind] at h
      exact le_trans (check_message_url_last_mono hstep) (ih fetch msg db2 db' h)

/-- The watermark-guard of on_message only ever raises lastUpdated. -/
theorem update_last_updated_mono (db : GuildDatabase) (ts : Int) :
    db.lastUpdated ≤ (update_last_updated db ts).lastUpdated := by
  unfold update_last_updated
  split_ifs with hgt
  · exact le_of_lt hgt
  · exact le_refl _

/-- Claim C5: the watermark never decreases: the guarded lastUpdated update of
on_message, the whole on_message step, and the protestbot check_message step all
leave the stored watermark greater than or equal to its previous value. -/
theorem c5_watermark_monotone :
    (∀ (db : GuildDatabase) (ts : Int),
      db.lastUpdated ≤ (update_last_updated db ts).lastUpdated) ∧
    (∀ (db : GuildDatabase) (m : Message) (db' : GuildDatabase),
      on_message db m = Except.ok db' → db.lastUpdated ≤ db'.lastUpdated) ∧
    (∀ (selfId : Int) (fetch : Int → Int → PMessage) (db : PStore) (m : PMessage)
        (db' : PStore),
      check_message selfId fetch db m = Except.ok db' →
      db.last_update ≤ db'.last_update) := by
  refine ⟨update_last_updated_mono, ?_, ?_⟩
  · intro db m db' h
    unfold on_message at h
    split_ifs at h with hguard
    · cases h
      exact le_refl _
    · cases hrm : review_message db m with
      | error e =>
        rw [hrm, error_bind] at h
        cases h
      | ok db2 =>
        rw [hrm, ok_bind] at h
        cases h
        have hfr := (review_message_frame hrm).2.1
        calc db.lastUpdated = db2.lastUpdated := hfr.symm
          _ ≤ (update_last_updated db2 m.timestamp).lastUpdated :=
              update_last_updated_mono db2 m.timestamp
  · intro selfId fetch db m db' h
    unfold check_message at h
    split_ifs at h
    · cases h
      exact le_refl _
    · cases h
      exact le_refl _
    · cases h
      exact le_refl _
    · exact urls_fold_last_mono m.urls fetch m db db' h

/-- Claim C5 (witness): concrete instantiations of the three monotonicity parts. -/
theorem c5_watermark_monotone_witness :
    dbEmptyR.lastUpdated ≤ (update_last_updated dbEmptyR 30).lastUpdated ∧
    dbEmptyR.lastUpdated ≤ dbC5res.lastUpdated ∧
    pdbEmpty.last_update ≤ pdbC5res.last_update :=
  ⟨c5_watermark_monotone.1 dbEmptyR 30,
   c5_watermark_monotone.2.1 dbEmptyR mC5 dbC5res rfl,
   c5_watermark_monotone.2.2 0 fetchP5 pdbEmpty pmsgC5 pdbC5res rfl⟩

/-- Claim C6 (counterexample): an occurrence of the blacklisted url u at
timestamp 5 is ignored for repost tracking, but it does mutate the store: the
watermark advances from 0 to 5, so "no state mutation" fails. -/
theorem c6_blacklisted_url_cex :
    check_message_url fetchP6 pdbC6 pmsgC6 "u" =
      Except.ok { pdbC6 with last_update := 5 } ∧
    ({ pdbC6 with last_update := 5 } : PStore) ≠ pdbC6 :=
  ⟨rfl, by decide⟩

/-- check_message_url preserves the blacklist and the absence of a URLs entry
for a blacklisted url. -/
theorem check_message_url_blacklist_invariant {fetch : Int → Int → PMessage}
    {db : PStore} {msg : PMessage} {url burl : String} {db' : PStore}
    (hbl : burl ∈ db.URL_blacklist) (hno : plookup db.URLs burl = none)
    (h : check_message_url fetch db msg url = Except.ok db') :
    burl ∈ db'.URL_blacklist ∧ plookup db'.URLs burl = none := by
  unfold check_message_url at h
  cases hin : check_message_url_inner fetch db msg url with
  | error e =>
    rw [hin, error_bind] at h
    cases h
  | ok db2 =>
    rw [hin, ok_bind] at h
    cases h
    refine ⟨?_, ?_⟩
    · show burl ∈ db2.URL_blacklist
      rw [(inner_frame hin).2.1]
      exact hbl
    · show plookup db2.URLs burl = none
      exact inner_blacklisted_url_not_added hbl hno hin

/-- Claim C6 (amended): an occurrence of a blacklisted url leaves the URLs map,
the member records and the blacklists untouched -- no UrlHolder is ever created
for it, over any sequence of occurrences -- but the watermark still advances to
the max of its current value and the occurrence timestamp. -/
theorem c6_blacklisted_url_amended :
    (∀ (fetch : Int → Int → PMessage) (db : PStore) (msg : PMessage) (url : String),
      url ∈ db.URL_blacklist →
      check_message_url fetch db msg url =
        Except.ok { db with last_update := max db.last_update msg.timestamp }) ∧
    (∀ (fetch : Int → Int → PMessage) (occs : List (PMessage × String))
        (db db' : PStore) (burl : String),
      burl ∈ db.URL_blacklist → plookup db.URLs burl = none →
      process_urls fetch db occs = Except.ok db' →
      plookup db'.URLs burl = none) := by
  constructor
  · intro fetch db msg url hbl
    unfold check_message_url check_message_url_inner
    rw [if_pos hbl, ok_bind]
  · intro fetch occs
    induction occs with
    | nil =>
      intro db db' burl hbl hno h
      simp only [process_urls, List.foldlM_nil, pure, Except.pure] at h
      cases h
      exact hno
    | cons occ rest ih =>
      intro db db' burl hbl hno h
      simp only [process_urls, List.foldlM_cons, occ_step] at h
      cases hstep : check_message_url fetch db occ.1 occ.2 with
      | error e =>
        rw [hstep, error_bind] at h
        cases h
      | ok db2 =>
        rw [hstep, ok_bind] at h
        obtain ⟨hbl2, hno2⟩ := check_message_url_blacklist_invariant hbl hno hstep
        exact ih db2 db' burl hbl2 hno2 h

/-- Claim C6 (witness): the blacklisted occurrence evaluates to exactly the
watermark-only update, and after the occurrence sequence the blacklisted url u
still has no holder entry. -/
theorem c6_blacklisted_url_amended_witness :
    check_message_url fetchP6 pdbC6 pmsgC6 "u" =
      Except.ok { pdbC6 with last_update := max pdbC6.last_update pmsgC6.timestamp } ∧
    plookup pdbC6res.URLs "u" = none :=
  ⟨c6_blacklisted_url_amended.1 fetchP6 pdbC6 pmsgC6 "u" (by decide),
   c6_blacklisted_url_amended.2 fetchP6 [(pmsgC6, "u"), (pmsgC6v, "v")]
     pdbC6 pdbC6res "u" (by decide) rfl rfl⟩
